import Mathlib

/-!
A verification development for the core of the Weenix-style instructional
kernel.  The definitions below are shallow embeddings of the C functions in
`kernel/vm/vmmap.c`, `kernel/vm/shadow.c`, `kernel/vm/mmap.c`,
`kernel/proc/proc.c` (scheduler and `do_waitpid`), `kernel/fs/open.c`
(`do_close`, `do_dup2`) and the virtual-memory part of `do_fork`.

Machine integers (`size_t`) are modelled as `Nat` with explicit wrap-around
`% 2^64` where the C code can underflow or overflow; signed values (`pid_t`,
`off_t`, file descriptors) are modelled as `Int`.  Pointers into a heap of
memory objects are modelled as indices into a list of `Option Mobj`, where
`none` stands for a freed slot.
-/

/-- Modulus of the C `size_t` / `uintptr_t` type (64-bit). -/
def M64 : Nat := 2 ^ 64

/-- Wrapping unsigned subtraction, as performed on C `size_t` values. -/
def usub (a b : Nat) : Nat := (a + (M64 - b % M64)) % M64

/-- `PAGE_SIZE` from `mm/page.h`. -/
def PAGE_SIZE : Nat := 4096

/-- `ADDR_TO_PN`: convert a byte address to a page number. -/
def ADDR_TO_PN (a : Nat) : Nat := a / PAGE_SIZE

/-- Truncate an `Int` to its 64-bit unsigned representation, as a C cast
`(size_t)x` does. -/
def intToU64 (i : Int) : Nat := (i % (2 ^ 64 : Int)).toNat

/-- The error codes used by the embedded functions (from `errno.h`).
The C functions return the negated code; the embedding returns the code
through `Except`. -/
inductive Errno where
  | EINVAL | EBADF | EACCES | ENODEV | ENOMEM | ENOTSUP | ECHILD | EINTR
deriving Repr, DecidableEq

/-! ## Memory objects (`mm/mobj.h`, `vm/shadow.c`, `vm/anon.c`) -/

inductive MobjType where
  | MOBJ_ANON | MOBJ_SHADOW | MOBJ_FILE
deriving Repr, DecidableEq

/-- A memory object.  `shadowed` and `bottom_mobj` are the two extra fields of
`mobj_shadow_t`; they are `none` for non-shadow objects.  `pframes` records
the page numbers of the cached page frames the object holds. -/
structure Mobj where
  mo_type : MobjType
  mo_refcount : Nat
  shadowed : Option Nat := none
  bottom_mobj : Option Nat := none
  pframes : List Nat := []
deriving Repr, DecidableEq

/-- The heap of memory objects: index = object identity, `none` = freed. -/
abbrev MobjHeap := List (Option Mobj)

def hget (h : MobjHeap) (i : Nat) : Option Mobj := (h.getD i none)

def hset (h : MobjHeap) (i : Nat) (m : Option Mobj) : MobjHeap := h.set i m

/-- `mobj_ref`: increment the reference count of object `i`. -/
def mobj_ref (h : MobjHeap) (i : Nat) : MobjHeap :=
  match hget h i with
  | none => h
  | some m => hset h i (some { m with mo_refcount := m.mo_refcount + 1 })

/-- `mobj_put`: decrement the reference count of object `i`; when it reaches
zero run the type's destructor.  `shadow_destructor` puts the `shadowed` and
`bottom_mobj` references and frees the object (dropping its page frames);
the anon/file destructors just free the object.  The fuel bounds the
recursion through chains of destructions. -/
def mobj_put : Nat → MobjHeap → Nat → MobjHeap
  | 0, h, _ => h
  | fuel + 1, h, i =>
    match hget h i with
    | none => h
    | some m =>
      if m.mo_refcount ≤ 1 then
        match m.mo_type with
        | .MOBJ_SHADOW =>
          let h1 := match m.shadowed with
                    | some s => mobj_put fuel h s
                    | none => h
          let h2 := match m.bottom_mobj with
                    | some b => mobj_put fuel h1 b
                    | none => h1
          hset h2 i none
        | _ => hset h i none
      else hset h i (some { m with mo_refcount := m.mo_refcount - 1 })

/-- `shadow_create` (`vm/shadow.c`): allocate a new shadow object over
`shadowed_id` with refcount 1, referencing its shadowed object and the bottom
of the chain (the shadowed object's own bottom when the shadowed object is a
shadow, otherwise the shadowed object itself).  Returns the new heap and the
new object's identity, or `none` on allocation failure (`KASSERT(shadowed)`
failure is modelled as `none` as well). -/
def shadow_create (h : MobjHeap) (shadowed_id : Nat) : Option (MobjHeap × Nat) :=
  match hget h shadowed_id with
  | none => none
  | some sm =>
    let bid := if sm.mo_type = .MOBJ_SHADOW then sm.bottom_mobj.getD shadowed_id
               else shadowed_id
    let newm : Mobj :=
      { mo_type := .MOBJ_SHADOW, mo_refcount := 1,
        shadowed := some shadowed_id, bottom_mobj := some bid, pframes := [] }
    let h1 := h ++ [some newm]
    let h2 := mobj_ref h1 shadowed_id
    let h3 := mobj_ref h2 bid
    some (h3, h.length)

/-- `shadow_collapse` (`vm/shadow.c`): if `o`'s shadowed object is itself a
shadow object with refcount 1, re-point `o.shadowed` to the shadowed object's
own `shadowed`, reference it, and put the old shadowed object (whose refcount
drops to zero, running its destructor).  The C code does not migrate any page
frames before unlinking. -/
def shadow_collapse (h : MobjHeap) (oid : Nat) : MobjHeap :=
  match hget h oid with
  | none => h
  | some o =>
    match o.shadowed with
    | none => h
    | some sid =>
      match hget h sid with
      | none => h
      | some sm =>
        if sm.mo_type ≠ .MOBJ_SHADOW then h
        else if sm.mo_refcount > 1 then h
        else
          let h1 := hset h oid (some { o with shadowed := sm.shadowed })
          let h2 := match sm.shadowed with
                    | some g => mobj_ref h1 g
                    | none => h1
          mobj_put h2.length h2 sid

/-- `anon_create` (`vm/anon.c`): allocate a fresh anonymous object with
refcount 1. -/
def anon_create (h : MobjHeap) : MobjHeap × Nat :=
  (h ++ [some { mo_type := .MOBJ_ANON, mo_refcount := 1 }], h.length)

/-! ## Virtual memory areas and address spaces (`vm/vmmap.c`) -/

/-- The `MAP_*` flag bits tested by the embedded code. -/
structure MFlags where
  map_shared : Bool := false
  map_private : Bool := false
  map_fixed : Bool := false
  map_anon : Bool := false
deriving Repr, DecidableEq

structure vmarea where
  vma_start : Nat
  vma_end : Nat
  vma_off : Nat := 0
  vma_prot : Nat := 0
  vma_flags : MFlags := {}
  vma_obj : Nat := 0
deriving Repr, DecidableEq

inductive Dir where
  | LOHI | HILO
deriving Repr, DecidableEq

/-- The vmarea list of an address space, in list order (`vmm_list`). -/
abbrev VmList := List vmarea

/-- `vmmap_insert`: insert before the first vmarea whose start is greater
than the new vmarea's start, else at the tail. -/
def vmmap_insert (new : vmarea) : VmList → VmList
  | [] => [new]
  | v :: rest =>
    if new.vma_start < v.vma_start then new :: v :: rest
    else v :: vmmap_insert new rest

/-- `vmmap_lookup`: the first vmarea containing page `vfn`. -/
def vmmap_lookup (vmas : VmList) (vfn : Nat) : Option vmarea :=
  vmas.find? (fun v => decide (v.vma_start ≤ vfn) && decide (vfn < v.vma_end))

/-- `vmmap_is_range_empty`: true iff no vmarea overlaps
`[startvfn, startvfn + npages)` (the C function returns 0 in that case). -/
def vmmap_is_range_empty (vmas : VmList) (startvfn npages : Nat) : Bool :=
  if npages = 0 then true
  else vmas.all (fun v =>
    decide ((startvfn + npages) % M64 ≤ v.vma_start) || decide (startvfn ≥ v.vma_end))

/-- The inner gap loop of `vmmap_find_range` for `VMMAP_DIR_HILO`: `prevEnd`
is the end of the previous vmarea; on the empty tail the gap up to `hi` is
checked.  A fitting gap yields the end-aligned start `gap_end - npages`. -/
def fr_hilo_loop (hi npages : Nat) : Nat → VmList → Option Nat
  | prevEnd, [] =>
    if usub hi prevEnd ≥ npages then some (usub hi npages) else none
  | prevEnd, v :: rest =>
    if usub v.vma_start prevEnd ≥ npages then some (usub v.vma_start npages)
    else fr_hilo_loop hi npages v.vma_end rest

/-- The inner gap loop of `vmmap_find_range` for `VMMAP_DIR_LOHI`: a fitting
gap yields its start `gap_start = prevEnd`. -/
def fr_lohi_loop (hi npages : Nat) : Nat → VmList → Option Nat
  | prevEnd, [] =>
    if usub hi prevEnd ≥ npages then some prevEnd else none
  | prevEnd, v :: rest =>
    if usub v.vma_start prevEnd ≥ npages then some prevEnd
    else fr_lohi_loop hi npages v.vma_end rest

/-- `vmmap_find_range` (`vm/vmmap.c`).  `lo` and `hi` are the page numbers
`ADDR_TO_PN(USER_MEM_LOW)` and `ADDR_TO_PN(USER_MEM_HIGH)`.  `none` models
the C return value `-1`. -/
def vmmap_find_range (lo hi : Nat) (vmas : VmList) (npages : Nat) (dir : Dir) :
    Option Nat :=
  if npages = 0 then none
  else
    match vmas with
    | [] =>
      match dir with
      | .HILO => some (usub hi npages)
      | .LOHI => some lo
    | v :: rest =>
      match dir with
      | .HILO =>
        let high_start := usub hi npages
        if v.vma_start > high_start then some high_start
        else if v.vma_start ≥ npages then some (v.vma_start - npages)
        else fr_hilo_loop hi npages v.vma_end rest
      | .LOHI =>
        if v.vma_start ≥ (lo + npages) % M64 then some lo
        else fr_lohi_loop hi npages v.vma_end rest

/-- The `list_iterate` body of `vmmap_remove`.  `hipage = lopage + npages`.
In the split case the C code inserts the new high vmarea *before* the
truncated low part (`list_insert_before`), and in the high-overlap case it
sets the vmarea to `[lopage, hipage)` with offset incremented by the wrapped
difference `lopage - vma_start`. -/
def vmmap_remove_loop (lopage hipage : Nat) : VmList → VmList
  | [] => []
  | v :: rest =>
    if v.vma_end ≤ lopage ∨ v.vma_start ≥ hipage then
      v :: vmmap_remove_loop lopage hipage rest
    else if v.vma_start < lopage ∧ v.vma_end > hipage then
      let high : vmarea :=
        { v with vma_start := hipage,
                 vma_off := (v.vma_off + (hipage - v.vma_start)) % M64 }
      let low : vmarea := { v with vma_end := lopage }
      high :: low :: vmmap_remove_loop lopage hipage rest
    else if v.vma_start < lopage then
      { v with vma_end := lopage } :: vmmap_remove_loop lopage hipage rest
    else if v.vma_end > hipage then
      { v with vma_off := (v.vma_off + usub lopage v.vma_start) % M64,
               vma_start := lopage, vma_end := hipage }
        :: vmmap_remove_loop lopage hipage rest
    else vmmap_remove_loop lopage hipage rest

/-- `vmmap_remove` (`vm/vmmap.c`). -/
def vmmap_remove (vmas : VmList) (lopage npages : Nat) : VmList :=
  if npages = 0 then vmas
  else vmmap_remove_loop lopage ((lopage + npages) % M64) vmas

/-- The address-space invariant from the specification: every vmarea lies in
`[lo, hi)`, is non-empty, and the list is sorted with pairwise-disjoint
ranges (each vmarea ends at or before the next one starts). -/
def vmmap_wf (lo hi : Nat) : VmList → Prop
  | [] => True
  | [v] => lo ≤ v.vma_start ∧ v.vma_start < v.vma_end ∧ v.vma_end ≤ hi
  | v :: w :: rest =>
    lo ≤ v.vma_start ∧ v.vma_start < v.vma_end ∧ v.vma_end ≤ hi ∧
    v.vma_end ≤ w.vma_start ∧ vmmap_wf lo hi (w :: rest)

instance : ∀ (lo hi : Nat) (l : VmList), Decidable (vmmap_wf lo hi l)
  | _, _, [] => .isTrue trivial
  | _, _, [_] => inferInstanceAs (Decidable (_ ∧ _ ∧ _))
  | lo, hi, _ :: w :: rest =>
    have : Decidable (vmmap_wf lo hi (w :: rest)) := instDecidableVmmap_wf lo hi (w :: rest)
    inferInstanceAs (Decidable (_ ∧ _ ∧ _ ∧ _ ∧ _))

/-! ## The virtual-memory part of `do_fork` (`part_001` of the repository) -/

/-- `vmmap_clone` (`vm/vmmap.c`): copy every vmarea (same ranges, flags and
backing object), referencing each backing object, and insert the copies into
a fresh map with `vmmap_insert`. -/
def vmmap_clone (vmas : VmList) (h : MobjHeap) : VmList × MobjHeap :=
  vmas.foldl (fun acc v => (vmmap_insert v acc.1, mobj_ref acc.2 v.vma_obj)) ([], h)

/-- The copy-on-write loop of `do_fork`: for every vmarea of the **child**
map whose flags lack `MAP_SHARED`, create a shadow object over its current
object, reference it, and install it as the vmarea's object.  Returns `none`
when `shadow_create` fails. -/
def fork_shadow_loop : VmList → MobjHeap → Option (VmList × MobjHeap)
  | [], h => some ([], h)
  | v :: rest, h =>
    if v.vma_flags.map_shared then
      match fork_shadow_loop rest h with
      | none => none
      | some (vs, h2) => some (v :: vs, h2)
    else
      match shadow_create h v.vma_obj with
      | none => none
      | some (h1, sid) =>
        let h2 := mobj_ref h1 sid
        match fork_shadow_loop rest h2 with
        | none => none
        | some (vs, h3) => some ({ v with vma_obj := sid } :: vs, h3)

/-- The address-space effect of `do_fork` (`part_001`): clone the parent's
map, then run the copy-on-write loop over the **child's** vmareas.  The
parent's vmarea list is returned unchanged — the C code only unmaps the
parent's page tables; it never touches the parent's `vma_obj` fields.
Result: (parent map, child map, heap). -/
def do_fork_vm (parent : VmList) (h : MobjHeap) :
    Option (VmList × VmList × MobjHeap) :=
  let c := vmmap_clone parent h
  match fork_shadow_loop c.1 c.2 with
  | none => none
  | some (childVmas, h2) => some (parent, childVmas, h2)

/-! ## `vmmap_map` and `do_mmap` (`vm/vmmap.c`, `vm/mmap.c`) -/

/-- The pieces of a `file_t`/`vnode_t` that `do_mmap` and `vmmap_map`
inspect: the file-mode bits and whether the vnode's operation table has an
`mmap` entry (which, for this embedding, yields the memory object
`mmap_obj`). -/
structure MFile where
  fmode_read : Bool := false
  fmode_write : Bool := false
  fmode_append : Bool := false
  has_mmap : Bool := false
  mmap_obj : Nat := 0
deriving Repr, DecidableEq

/-- The state touched by `do_mmap`: the current process's vmarea list, the
memory-object heap, and the descriptor table (`p_files`, of length
`NFILES`). -/
structure VMState where
  vmas : VmList
  heap : MobjHeap
  files : List (Option MFile)
deriving Repr, DecidableEq

/-- `PROT_READ` and `PROT_WRITE` bits from `mm/mman.h`. -/
def PROT_READ : Nat := 1

def PROT_WRITE : Nat := 2

/-- `vmmap_map` (`vm/vmmap.c`): find a free range, allocate a vmarea over it
and bind it to a fresh anonymous object (`MAP_ANON`) or to the vnode's mmap
object.  `lo`/`hi` are the user page-number bounds.  On success returns the
new state and the start page of the mapping. -/
def vmmap_map (lo hi : Nat) (st : VMState) (file : Option MFile) (npages : Nat)
    (prot : Nat) (flags : MFlags) (off : Int) (dir : Dir) :
    Except Errno (VMState × Nat) :=
  if npages = 0 then .error .EINVAL
  else
    match vmmap_find_range lo hi st.vmas npages dir with
    | none => .error .ENOMEM
    | some startPN =>
      if flags.map_anon then
        let a := anon_create st.heap
        let vma : vmarea :=
          { vma_start := startPN, vma_end := (startPN + npages) % M64,
            vma_off := ADDR_TO_PN (intToU64 off), vma_prot := prot,
            vma_flags := flags, vma_obj := a.2 }
        .ok ({ st with vmas := vmmap_insert vma st.vmas, heap := a.1 }, startPN)
      else
        match file with
        | some f =>
          if ¬ f.has_mmap then .error .ENODEV
          else
            let vma : vmarea :=
              { vma_start := startPN, vma_end := (startPN + npages) % M64,
                vma_off := ADDR_TO_PN (intToU64 off), vma_prot := prot,
                vma_flags := flags, vma_obj := f.mmap_obj }
            .ok ({ st with vmas := vmmap_insert vma st.vmas }, startPN)
        | none => .error .EINVAL

/-- `do_mmap` (`vm/mmap.c`).  `ulow`/`uhigh` are the byte addresses
`USER_MEM_LOW`/`USER_MEM_HIGH`.  Returns the start address of the mapping on
success; every error path leaves the state unchanged, exactly as the C code
returns before mutating the address space. -/
def do_mmap (ulow uhigh : Nat) (st : VMState) (addr : Nat) (len : Nat)
    (prot : Nat) (flags : MFlags) (fd : Int) (off : Int) :
    (Except Errno Nat) × VMState :=
  if len = 0 ∨ off < 0 then (.error .EINVAL, st)
  else if ¬ flags.map_private ∧ ¬ flags.map_shared then (.error .EINVAL, st)
  else if flags.map_fixed ∧ addr % PAGE_SIZE ≠ 0 then (.error .EINVAL, st)
  else if flags.map_fixed ∧ (addr < ulow ∨ addr ≥ uhigh) then (.error .EINVAL, st)
  else if off % (PAGE_SIZE : Int) ≠ 0 then (.error .EINVAL, st)
  else
    let page_len := (len + (PAGE_SIZE - 1)) % M64 / PAGE_SIZE * PAGE_SIZE
    let npages := ADDR_TO_PN page_len
    if flags.map_anon then
      if fd ≠ -1 then (.error .EINVAL, st)
      else
        match vmmap_map (ADDR_TO_PN ulow) (ADDR_TO_PN uhigh) st none npages
                prot flags off .HILO with
        | .error e => (.error e, st)
        | .ok (st2, startPN) => (.ok (startPN * PAGE_SIZE), st2)
    else
      if fd < 0 ∨ fd ≥ (st.files.length : Int) then (.error .EBADF, st)
      else
        match st.files.getD fd.toNat none with
        | none => (.error .EBADF, st)
        | some f =>
          if prot &&& PROT_READ ≠ 0 ∧ ¬ f.fmode_read then (.error .EACCES, st)
          else if prot &&& PROT_WRITE ≠ 0 ∧ flags.map_shared ∧ ¬ f.fmode_write then
            (.error .EACCES, st)
          else if prot &&& PROT_WRITE ≠ 0 ∧ f.fmode_append then (.error .EACCES, st)
          else if ¬ f.has_mmap then (.error .ENODEV, st)
          else
            match vmmap_map (ADDR_TO_PN ulow) (ADDR_TO_PN uhigh) st (some f)
                    npages prot flags off .HILO with
            | .error e => (.error e, st)
            | .ok (st2, startPN) => (.ok (startPN * PAGE_SIZE), st2)

/-! ## Descriptor table: `do_close`, `do_dup2` (`fs/open.c`) -/

/-- The descriptor-table state: `files` is the per-process `p_files` array
(entries are open-file identities), `refcounts` maps each open-file identity
to its `f_refcount`. -/
structure FdState where
  files : List (Option Nat)
  refcounts : List Nat
deriving Repr, DecidableEq

/-- `fref`: increment an open-file's refcount. -/
def fref (st : FdState) (fid : Nat) : FdState :=
  { st with refcounts := st.refcounts.set fid (st.refcounts.getD fid 0 + 1) }

/-- `fput`: decrement an open-file's refcount. -/
def fput (st : FdState) (fid : Nat) : FdState :=
  { st with refcounts := st.refcounts.set fid (st.refcounts.getD fid 0 - 1) }

/-- `do_close` (`fs/open.c`): validate the descriptor, clear the slot and put
the open-file reference. -/
def do_close (st : FdState) (fd : Int) : (Except Errno Unit) × FdState :=
  if fd < 0 ∨ fd ≥ (st.files.length : Int) then (.error .EBADF, st)
  else
    match st.files.getD fd.toNat none with
    | none => (.error .EBADF, st)
    | some fid =>
      (.ok (), fput { st with files := st.files.set fd.toNat none } fid)

/-- `do_dup2` (`fs/open.c`): validate both descriptors; fail with `EBADF`
when `ofd` is not open; return immediately when `ofd = nfd`; otherwise close
`nfd` if it is occupied, then share `ofd`'s open file into slot `nfd` with an
extra reference. -/
def do_dup2 (st : FdState) (ofd nfd : Int) : (Except Errno Int) × FdState :=
  if ofd < 0 ∨ ofd ≥ (st.files.length : Int) then (.error .EBADF, st)
  else if nfd < 0 ∨ nfd ≥ (st.files.length : Int) then (.error .EBADF, st)
  else
    match st.files.getD ofd.toNat none with
    | none => (.error .EBADF, st)
    | some fid =>
      if ofd = nfd then (.ok nfd, st)
      else
        let st1 := if (st.files.getD nfd.toNat none).isSome then (do_close st nfd).2
                   else st
        let st2 := fref st1 fid
        (.ok nfd, { st2 with files := st2.files.set nfd.toNat (some fid) })

/-! ## `do_waitpid` (`proc/proc.c`) -/

inductive PState where
  | RUNNING | DEAD
deriving Repr, DecidableEq

/-- One child process as `do_waitpid` observes it: pid, `p_state`,
`p_status`. -/
structure WChild where
  pid : Int
  state : PState
  status : Int
deriving Repr, DecidableEq

abbrev Children := List WChild

/-- The `list_iterate` search of `p_children` for a given pid. -/
def findChild (pid : Int) (cs : Children) : Option WChild :=
  cs.find? (fun c => decide (c.pid = pid))

/-- `list_remove` of a child from `p_children` (children have unique pids). -/
def removeChild (pid : Int) (cs : Children) : Children :=
  cs.filter (fun c => decide (c.pid ≠ pid))

/-- The `list_iterate` search for any DEAD child (pid = -1 case). -/
def firstDead (cs : Children) : Option WChild :=
  cs.find? (fun c => decide (c.state = PState.DEAD))

/-- The result of `do_waitpid`: an error, a reaped child (its pid, the status
written through `status` when the pointer was provided, and the final child
list), or `sleeping` when the thread is still blocked in `sched_sleep_on`
after the supplied schedule of wakeups is exhausted. -/
inductive WaitRes where
  | err : Errno → WaitRes
  | reaped : Int → Option Int → Children → WaitRes
  | sleeping : WaitRes
deriving Repr, DecidableEq

/-- The `while (child->p_state != PROC_DEAD) sched_sleep_on(...)` loop of the
pid > 0 branch.  Each `sched_sleep_on` consumes the next snapshot of the
child list from `future` (the state of the children when the sleeper is next
woken). -/
def waitLoopPid (pid : Int) (useStatus : Bool) :
    Children → List Children → WaitRes
  | cs, [] =>
    match findChild pid cs with
    | some c =>
      if c.state = PState.DEAD then
        .reaped c.pid (if useStatus then some c.status else none) (removeChild pid cs)
      else .sleeping
    | none => .sleeping
  | cs, cs2 :: rest =>
    match findChild pid cs with
    | some c =>
      if c.state = PState.DEAD then
        .reaped c.pid (if useStatus then some c.status else none) (removeChild pid cs)
      else waitLoopPid pid useStatus cs2 rest
    | none => waitLoopPid pid useStatus cs2 rest

/-- The `while (!dead_child) { ...; sched_sleep_on(...) }` loop of the
pid = -1 branch. -/
def waitLoopAny (useStatus : Bool) : Children → List Children → WaitRes
  | cs, [] =>
    match firstDead cs with
    | some c =>
      .reaped c.pid (if useStatus then some c.status else none) (removeChild c.pid cs)
    | none => .sleeping
  | cs, cs2 :: rest =>
    match firstDead cs with
    | some c =>
      .reaped c.pid (if useStatus then some c.status else none) (removeChild c.pid cs)
    | none => waitLoopAny useStatus cs2 rest

/-- `do_waitpid` (`proc/proc.c`).  `useStatus` models whether the `status`
out-pointer was non-NULL; `cs` is the current child list and `future` the
sequence of child-list snapshots seen after each `sched_sleep_on`. -/
def do_waitpid (pid : Int) (useStatus : Bool) (options : Int)
    (cs : Children) (future : List Children) : WaitRes :=
  if options ≠ 0 then .err .ENOTSUP
  else if pid = 0 ∨ pid < -1 then .err .ENOTSUP
  else if pid > 0 then
    match findChild pid cs with
    | none => .err .ECHILD
    | some _ => waitLoopPid pid useStatus cs future
  else
    if cs = [] then .err .ECHILD
    else waitLoopAny useStatus cs future

/-! ## Cancellable sleep and cancellation (`proc/proc.c`, scheduler part) -/

inductive TState where
  | NO_STATE | KT_RUNNABLE | KT_ON_CPU | KT_SLEEP | KT_SLEEP_CANCELLABLE | KT_EXITED
deriving Repr, DecidableEq

/-- The fields of `kthread_t` the embedded scheduler functions touch.
`kt_wchan` is the index of the queue the thread is enqueued on, if any. -/
structure KThread where
  kt_state : TState
  kt_cancelled : Bool
  kt_wchan : Option Nat := none
deriving Repr, DecidableEq

/-- Scheduler state: the threads (indexed by thread id) and the queues
(indexed by queue id; queue 0 is the run queue `kt_runq`, positive ids are
wait queues).  Each queue is the FIFO list of thread ids, head = most
recently enqueued (`ktqueue_enqueue` inserts at the head). -/
structure Sched where
  threads : List KThread
  queues : List (List Nat)
deriving Repr, DecidableEq

def getThread (s : Sched) (tid : Nat) : KThread :=
  s.threads.getD tid { kt_state := .NO_STATE, kt_cancelled := false }

def setThread (s : Sched) (tid : Nat) (t : KThread) : Sched :=
  { s with threads := s.threads.set tid t }

def getQueue (s : Sched) (qid : Nat) : List Nat := s.queues.getD qid []

/-- `ktqueue_enqueue`: insert the thread at the head of the queue and set its
`kt_wchan`. -/
def ktqueue_enqueue (s : Sched) (qid tid : Nat) : Sched :=
  let s1 := { s with queues := s.queues.set qid (tid :: getQueue s qid) }
  setThread s1 tid { getThread s1 tid with kt_wchan := some qid }

/-- `ktqueue_remove`: unlink the thread from the queue and clear its
`kt_wchan`. -/
def ktqueue_remove (s : Sched) (qid tid : Nat) : Sched :=
  let s1 := { s with queues := s.queues.set qid ((getQueue s qid).erase tid) }
  setThread s1 tid { getThread s1 tid with kt_wchan := none }

/-- `sched_make_runnable`: set the thread RUNNABLE and enqueue it on the run
queue (queue 0). -/
def sched_make_runnable (s : Sched) (tid : Nat) : Sched :=
  let s1 := setThread s tid { getThread s tid with kt_state := .KT_RUNNABLE }
  ktqueue_enqueue s1 0 tid

/-- `sched_cancel` (`proc/proc.c`): mark the thread cancelled; if it is in a
cancellable sleep, remove it from its wait channel and make it runnable. -/
def sched_cancel (s : Sched) (tid : Nat) : Sched :=
  let s1 := setThread s tid { getThread s tid with kt_cancelled := true }
  if (getThread s1 tid).kt_state = .KT_SLEEP_CANCELLABLE then
    match (getThread s1 tid).kt_wchan with
    | some q => sched_make_runnable (ktqueue_remove s1 q tid) tid
    | none => s1
  else s1

/-- The first half of `sched_cancellable_sleep_on`, up to and including the
context switch: if the thread is already cancelled, return `EINTR`
immediately without touching any state; otherwise set the state to
`KT_SLEEP_CANCELLABLE` and deposit the thread on `queue` (`sched_switch`
hands the deposit queue to `core_switch`, which enqueues the outgoing
thread). -/
def cancellable_sleep_enter (s : Sched) (tid qid : Nat) : Except Errno Sched :=
  if (getThread s tid).kt_cancelled then .error .EINTR
  else
    let s1 := setThread s tid
      { getThread s tid with kt_state := .KT_SLEEP_CANCELLABLE }
    .ok (ktqueue_enqueue s1 qid tid)

/-- The second half of `sched_cancellable_sleep_on`: the return value
computed when the thread resumes — `EINTR` iff it has been cancelled,
else 0 (`.ok`). -/
def cancellable_sleep_resume (s : Sched) (tid : Nat) : Except Errno Unit :=
  if (getThread s tid).kt_cancelled then .error .EINTR else .ok ()

/-! ## Theorems -/

/-- `(l.set i x).getD i d = x` when `i` is in bounds. -/
theorem list_getD_set_self {α : Type} (l : List α) (i : Nat) (x d : α)
    (h : i < l.length) : (l.set i x).getD i d = x := by
  simp [List.getD, List.getElem?_set_eq_of_lt, h]

/-- `(l.set i x).getD j d = l.getD j d` when `i ≠ j`. -/
theorem list_getD_set_ne {α : Type} (l : List α) (i j : Nat) (x d : α)
    (h : i ≠ j) : (l.set i x).getD j d = l.getD j d := by
  simp [List.getD, List.getElem?_set_ne, h]

/-- C1.  The claim states that after `do_fork` every PRIVATE vmarea of the
**parent's** address space, as well as of the child's, is backed by a newly
created SHADOW object on top of its previous object.  Evaluating the
embedded `do_fork_vm` on an address space with a single PRIVATE vmarea
backed by the anonymous object 0 shows the code violates this: the child's
vmarea is re-pointed at the fresh shadow object 1, but the parent's vmarea
still names object 0, which is still of type ANON — the parent never gains a
shadow object. -/
theorem C1_do_fork_parent_not_shadowed :
    do_fork_vm [{ vma_start := 2000, vma_end := 3000 }]
        [some { mo_type := .MOBJ_ANON, mo_refcount := 1 }] =
      some ([{ vma_start := 2000, vma_end := 3000 }],
            [{ vma_start := 2000, vma_end := 3000, vma_obj := 1 }],
            [some { mo_type := .MOBJ_ANON, mo_refcount := 4 },
             some { mo_type := .MOBJ_SHADOW, mo_refcount := 2,
                    shadowed := some 0, bottom_mobj := some 0 }]) ∧
    ({ vma_start := 2000, vma_end := 3000 : vmarea }).vma_flags.map_shared = false ∧
    (hget [some { mo_type := .MOBJ_ANON, mo_refcount := 4 },
           some { mo_type := .MOBJ_SHADOW, mo_refcount := 2,
                  shadowed := some 0, bottom_mobj := some 0 }] 0).map Mobj.mo_type =
      some .MOBJ_ANON := by
  decide

/-- C2.  The claim states that `shadow_collapse` migrates into `S` every
page held by the removed link that `S` does not already hold.  Evaluating
the embedded `shadow_collapse` on the chain `S (id 2) → T (id 1, refcount 1,
holding page 5) → B (id 0, anon)` shows: the link `T` is spliced out
(`S.shadowed` becomes `B`, `T` is destroyed, `B` loses the removed link's
two references and gains `S`'s new one), but page 5 — held by `T` and not by
`S` — is *not* migrated: `S` still holds no pages at all afterwards, so the
page is lost. -/
theorem C2_shadow_collapse_drops_page :
    shadow_collapse
        [some { mo_type := .MOBJ_ANON, mo_refcount := 3 },
         some { mo_type := .MOBJ_SHADOW, mo_refcount := 1,
                shadowed := some 0, bottom_mobj := some 0, pframes := [5] },
         some { mo_type := .MOBJ_SHADOW, mo_refcount := 1,
                shadowed := some 1, bottom_mobj := some 0 }] 2 =
      [some { mo_type := .MOBJ_ANON, mo_refcount := 2 },
       none,
       some { mo_type := .MOBJ_SHADOW, mo_refcount := 1,
              shadowed := some 0, bottom_mobj := some 0 }] ∧
    (5 : Nat) ∈ ({ mo_type := .MOBJ_SHADOW, mo_refcount := 1, shadowed := some 0,
                   bottom_mobj := some 0, pframes := [5] : Mobj }).pframes ∧
    (hget (shadow_collapse
        [some { mo_type := .MOBJ_ANON, mo_refcount := 3 },
         some { mo_type := .MOBJ_SHADOW, mo_refcount := 1,
                shadowed := some 0, bottom_mobj := some 0, pframes := [5] },
         some { mo_type := .MOBJ_SHADOW, mo_refcount := 1,
                shadowed := some 1, bottom_mobj := some 0 }] 2) 2).map Mobj.pframes =
      some [] := by
  decide

/-- C3.  The claim states that `find_range(npages, HIGH_TO_LOW)` returns the
start of the *highest*-address gap that can hold `npages` pages.  Evaluating
the embedded `vmmap_find_range` with user page range `[1024, 4096)`, a
single vmarea `[2000, 3000)` and `npages = 1` shows the code instead returns
`1999` — a placement in the gap *below* the vmarea — even though the whole
range `[3000, 4096)` above the vmarea is free, so a strictly higher gap
could hold the request. -/
theorem C3_find_range_hilo_not_highest :
    vmmap_find_range 1024 4096 [{ vma_start := 2000, vma_end := 3000 }] 1 .HILO =
      some 1999 ∧
    vmmap_is_range_empty [{ vma_start := 2000, vma_end := 3000 }] 3000 1096 = true ∧
    1999 < 3000 := by
  decide

/-- C4.  The claim states that after `remove(start, n)` no vmarea contains a
page of `[start, start + n)` and every outside page keeps its mapping.
Evaluating the embedded `vmmap_remove` on a single vmarea `[2000, 3000)`
with `remove(1500, 1000)` (so the removed range is `[1500, 2500)`) shows the
branch for a vmarea overlapping the high end of the range rewrites the
vmarea to exactly the removed range `[1500, 2500)` (with a wrapped-around
offset): page 2200 inside the removed range is still mapped, while page
2700, mapped before and outside the removed range, is gone. -/
theorem C4_remove_keeps_removed_range :
    vmmap_remove [{ vma_start := 2000, vma_end := 3000 }] 1500 1000 =
      [{ vma_start := 1500, vma_end := 2500, vma_off := 18446744073709551116 }] ∧
    (vmmap_lookup (vmmap_remove [{ vma_start := 2000, vma_end := 3000 }] 1500 1000)
        2200).isSome = true ∧
    vmmap_lookup (vmmap_remove [{ vma_start := 2000, vma_end := 3000 }] 1500 1000)
        2700 = none ∧
    (vmmap_lookup [{ vma_start := 2000, vma_end := 3000 }] 2700).isSome = true := by
  decide

/-- C5.  The claim states that every vmmap operation preserves the
invariant that vmareas are pairwise disjoint, strictly sorted by start and
inside the user range.  Evaluating the embedded `vmmap_remove` on the
well-formed single-vmarea map `[2000, 3000)` with `remove(2400, 100)` (a
range strictly inside the vmarea, forcing a split) shows the C code inserts
the new high part *before* the truncated low part (`list_insert_before`),
producing the list `[[2500, 3000), [2000, 2400)]`, which is no longer sorted
by start — the invariant is not preserved. -/
theorem C5_remove_split_breaks_sort :
    vmmap_wf 1024 4096 [{ vma_start := 2000, vma_end := 3000 }] ∧
    vmmap_remove [{ vma_start := 2000, vma_end := 3000 }] 2400 100 =
      [{ vma_start := 2500, vma_end := 3000, vma_off := 500 },
       { vma_start := 2000, vma_end := 2400 }] ∧
    ¬ vmmap_wf 1024 4096
        (vmmap_remove [{ vma_start := 2000, vma_end := 3000 }] 2400 100) := by
  decide

/-- If the sought child is DEAD in the current snapshot, the wait loop reaps
it immediately. -/
theorem waitLoopPid_dead (pid : Int) (us : Bool) (cs : Children)
    (future : List Children) (c : WChild) (h1 : findChild pid cs = some c)
    (h2 : c.state = .DEAD) :
    waitLoopPid pid us cs future =
      .reaped c.pid (if us then some c.status else none) (removeChild pid cs) := by
  cases future with
  | nil => simp only [waitLoopPid, h1, h2]; rfl
  | cons a b => simp only [waitLoopPid, h1, h2]; rfl

/-- If the sought child is alive in the current snapshot, the wait loop
sleeps and continues with the next snapshot. -/
theorem waitLoopPid_cons (pid : Int) (us : Bool) (cs cs2 : Children)
    (rest : List Children) (c : WChild) (h1 : findChild pid cs = some c)
    (h2 : c.state ≠ .DEAD) :
    waitLoopPid pid us cs (cs2 :: rest) = waitLoopPid pid us cs2 rest := by
  simp only [waitLoopPid, h1]
  simp [h2]

/-- If the sought child is alive in every snapshot, the wait loop is still
sleeping when the snapshots run out. -/
theorem waitLoopPid_sleep_all (pid : Int) (us : Bool) :
    ∀ (future : List Children) (cs : Children),
      (∀ x ∈ cs :: future, ∃ c, findChild pid x = some c ∧ c.state = .RUNNING) →
      waitLoopPid pid us cs future = .sleeping := by
  intro future
  induction future with
  | nil =>
    intro cs h
    obtain ⟨c, hc, hr⟩ := h cs (by simp)
    simp only [waitLoopPid, hc]
    simp [hr]
  | cons cs2 rest ih =>
    intro cs h
    obtain ⟨c, hc, hr⟩ := h cs (by simp)
    rw [waitLoopPid_cons pid us cs cs2 rest c hc (by simp [hr])]
    exact ih cs2 (fun x hx => h x (by simp at hx ⊢; tauto))

/-- If the sought child is alive in every snapshot before `snap` and DEAD in
`snap`, the wait loop reaps it at `snap`. -/
theorem waitLoopPid_reaches (pid : Int) (us : Bool) :
    ∀ (past : List Children) (cs : Children) (future : List Children)
      (snap : Children) (rest : List Children) (c : WChild),
      cs :: future = past ++ snap :: rest →
      (∀ x ∈ past, ∃ d, findChild pid x = some d ∧ d.state = .RUNNING) →
      findChild pid snap = some c → c.state = .DEAD →
      waitLoopPid pid us cs future =
        .reaped c.pid (if us then some c.status else none) (removeChild pid snap) := by
  intro past
  induction past with
  | nil =>
    intro cs future snap rest c heq _ hc hdead
    simp only [List.nil_append, List.cons.injEq] at heq
    obtain ⟨h1, h2⟩ := heq
    subst h1
    exact waitLoopPid_dead pid us cs future c hc hdead
  | cons p past2 ih =>
    intro cs future snap rest c heq hpast hc hdead
    simp only [List.cons_append, List.cons.injEq] at heq
    obtain ⟨h1, h2⟩ := heq
    subst h1
    obtain ⟨d, hd, hrun⟩ := hpast cs (by simp)
    cases hF : past2 ++ snap :: rest with
    | nil => simp at hF
    | cons a b =>
      rw [h2, hF]
      rw [waitLoopPid_cons pid us cs a b d hd (by simp [hrun])]
      have : a :: b = past2 ++ snap :: rest := hF.symm
      exact ih a b snap rest c this (fun x hx => hpast x (by simp [hx])) hc hdead

/-- If some child is DEAD in the current snapshot, the pid = -1 loop reaps
the first such child immediately. -/
theorem waitLoopAny_dead (us : Bool) (cs : Children) (future : List Children)
    (c : WChild) (h1 : firstDead cs = some c) :
    waitLoopAny us cs future =
      .reaped c.pid (if us then some c.status else none) (removeChild c.pid cs) := by
  cases future with
  | nil => simp only [waitLoopAny, h1]
  | cons a b => simp only [waitLoopAny, h1]

/-- If no child is DEAD in the current snapshot, the pid = -1 loop sleeps
and continues with the next snapshot. -/
theorem waitLoopAny_cons (us : Bool) (cs cs2 : Children) (rest : List Children)
    (h1 : firstDead cs = none) :
    waitLoopAny us cs (cs2 :: rest) = waitLoopAny us cs2 rest := by
  simp only [waitLoopAny, h1]

/-- If no child is ever DEAD, the pid = -1 loop is still sleeping when the
snapshots run out. -/
theorem waitLoopAny_sleep_all (us : Bool) :
    ∀ (future : List Children) (cs : Children),
      (∀ x ∈ cs :: future, firstDead x = none) →
      waitLoopAny us cs future = .sleeping := by
  intro future
  induction future with
  | nil =>
    intro cs h
    simp only [waitLoopAny, h cs (by simp)]
  | cons cs2 rest ih =>
    intro cs h
    rw [waitLoopAny_cons us cs cs2 rest (h cs (by simp))]
    exact ih cs2 (fun x hx => h x (by simp at hx ⊢; tauto))

/-- If no child is DEAD in any snapshot before `snap` and some child is DEAD
in `snap`, the pid = -1 loop reaps the first DEAD child of `snap`. -/
theorem waitLoopAny_reaches (us : Bool) :
    ∀ (past : List Children) (cs : Children) (future : List Children)
      (snap : Children) (rest : List Children) (c : WChild),
      cs :: future = past ++ snap :: rest →
      (∀ x ∈ past, firstDead x = none) →
      firstDead snap = some c →
      waitLoopAny us cs future =
        .reaped c.pid (if us then some c.status else none) (removeChild c.pid snap) := by
  intro past
  induction past with
  | nil =>
    intro cs future snap rest c heq _ hc
    simp only [List.nil_append, List.cons.injEq] at heq
    obtain ⟨h1, h2⟩ := heq
    subst h1
    exact waitLoopAny_dead us cs future c hc
  | cons p past2 ih =>
    intro cs future snap rest c heq hpast hc
    simp only [List.cons_append, List.cons.injEq] at heq
    obtain ⟨h1, h2⟩ := heq
    subst h1
    cases hF : past2 ++ snap :: rest with
    | nil => simp at hF
    | cons a b =>
      rw [h2, hF]
      rw [waitLoopAny_cons us cs a b (hpast cs (by simp))]
      exact ih a b snap rest c hF.symm (fun x hx => hpast x (by simp [hx])) hc

/-- C6.  `do_waitpid(pid, status, options)` returns `-ENOTSUP` whenever
`options ≠ 0` or `pid = 0` or `pid < -1`.  For `pid > 0` it returns
`-ECHILD` when `pid` is not a direct child; otherwise it sleeps until that
child's state is DEAD (the reap happens at the first snapshot in which the
child is DEAD; while the child stays RUNNING through every wakeup it is
still sleeping) and then reaps it: the child is removed from the child list,
its status is reported when a status pointer was provided, and its pid (which
equals the requested `pid`) is returned.  For `pid = -1` it returns
`-ECHILD` when there are no children, and otherwise sleeps until some child
is DEAD and reaps that child. -/
theorem C6_do_waitpid_contract (pid : Int) (useStatus : Bool) (options : Int)
    (cs : Children) (future : List Children) :
    (options ≠ 0 → do_waitpid pid useStatus options cs future = .err .ENOTSUP) ∧
    (options = 0 → (pid = 0 ∨ pid < -1) →
      do_waitpid pid useStatus options cs future = .err .ENOTSUP) ∧
    (options = 0 → 0 < pid → findChild pid cs = none →
      do_waitpid pid useStatus options cs future = .err .ECHILD) ∧
    (options = 0 → pid = -1 → cs = [] →
      do_waitpid pid useStatus options cs future = .err .ECHILD) ∧
    (options = 0 → 0 < pid →
      ∀ (past : List Children) (snap : Children) (rest : List Children) (c : WChild),
        cs :: future = past ++ snap :: rest →
        (∀ x ∈ past, ∃ d, findChild pid x = some d ∧ d.state = .RUNNING) →
        findChild pid snap = some c → c.state = .DEAD →
        c.pid = pid ∧
        do_waitpid pid useStatus options cs future =
          .reaped c.pid (if useStatus then some c.status else none)
            (removeChild pid snap)) ∧
    (options = 0 → 0 < pid →
      (∀ x ∈ cs :: future, ∃ d, findChild pid x = some d ∧ d.state = .RUNNING) →
      do_waitpid pid useStatus options cs future = .sleeping) ∧
    (options = 0 → pid = -1 → cs ≠ [] →
      ∀ (past : List Children) (snap : Children) (rest : List Children) (c : WChild),
        cs :: future = past ++ snap :: rest →
        (∀ x ∈ past, firstDead x = none) →
        firstDead snap = some c →
        do_waitpid pid useStatus options cs future =
          .reaped c.pid (if useStatus then some c.status else none)
            (removeChild c.pid snap)) ∧
    (options = 0 → pid = -1 → cs ≠ [] →
      (∀ x ∈ cs :: future, firstDead x = none) →
      do_waitpid pid useStatus options cs future = .sleeping) := by
  refine ⟨?_, ?_, ?_, ?_, ?_, ?_, ?_, ?_⟩
  · intro h
    simp [do_waitpid, h]
  · intro h0 h
    subst h0
    rcases h with h | h
    · simp [do_waitpid, h]
    · simp [do_waitpid, h]
  · intro h0 hp hnone
    subst h0
    have hno : ¬(pid = 0 ∨ pid < -1) := by omega
    simp [do_waitpid, hno, hp, hnone]
  · intro h0 hm1 hemp
    subst h0
    subst hm1
    subst hemp
    simp [do_waitpid]
  · intro h0 hp past snap rest c heq hpast hc hdead
    subst h0
    have hcpid : c.pid = pid := by
      have := List.find?_some hc
      simpa using this
    refine ⟨hcpid, ?_⟩
    have hcs : ∃ e, findChild pid cs = some e := by
      cases past with
      | nil =>
        simp only [List.nil_append, List.cons.injEq] at heq
        exact ⟨c, by rw [heq.1]; exact hc⟩
      | cons p past2 =>
        simp only [List.cons_append, List.cons.injEq] at heq
        obtain ⟨d, hd, _⟩ := hpast p (by simp)
        exact ⟨d, by rw [heq.1]; exact hd⟩
    obtain ⟨e, he⟩ := hcs
    have hno : ¬(pid = 0 ∨ pid < -1) := by omega
    have hred : do_waitpid pid useStatus 0 cs future =
        waitLoopPid pid useStatus cs future := by
      simp [do_waitpid, hno, hp, he]
    rw [hred]
    exact waitLoopPid_reaches pid useStatus past cs future snap rest c heq hpast hc hdead
  · intro h0 hp hall
    subst h0
    obtain ⟨e, he, _⟩ := hall cs (by simp)
    have hno : ¬(pid = 0 ∨ pid < -1) := by omega
    have hred : do_waitpid pid useStatus 0 cs future =
        waitLoopPid pid useStatus cs future := by
      simp [do_waitpid, hno, hp, he]
    rw [hred]
    exact waitLoopPid_sleep_all pid useStatus future cs hall
  · intro h0 hm1 hne past snap rest c heq hpast hc
    subst h0
    subst hm1
    have hred : do_waitpid (-1) useStatus 0 cs future =
        waitLoopAny useStatus cs future := by
      simp [do_waitpid, hne]
    rw [hred]
    exact waitLoopAny_reaches useStatus past cs future snap rest c heq hpast hc
  · intro h0 hm1 hne hall
    subst h0
    subst hm1
    have hred : do_waitpid (-1) useStatus 0 cs future =
        waitLoopAny useStatus cs future := by
      simp [do_waitpid, hne]
    rw [hred]
    exact waitLoopAny_sleep_all useStatus future cs hall

/-- Witness for C6: a parent waits for pid 7 while the child is still
RUNNING; the child is DEAD at the next wakeup, and `do_waitpid` reaps it,
reports status 42 and removes it from the child list. -/
theorem C6_do_waitpid_contract_witness :
    do_waitpid 7 true 0 [{ pid := 7, state := .RUNNING, status := 0 }]
        [[{ pid := 7, state := .DEAD, status := 42 }]] =
      .reaped 7 (some 42) [] := by
  have h := ((C6_do_waitpid_contract 7 true 0
      [{ pid := 7, state := .RUNNING, status := 0 }]
      [[{ pid := 7, state := .DEAD, status := 42 }]]).2.2.2.2.1
    rfl (by decide)
    [[{ pid := 7, state := .RUNNING, status := 0 }]]
    [{ pid := 7, state := .DEAD, status := 42 }] []
    { pid := 7, state := .DEAD, status := 42 }
    rfl
    (by
      intro x hx
      simp only [List.mem_singleton] at hx
      subst hx
      exact ⟨{ pid := 7, state := .RUNNING, status := 0 }, by decide, rfl⟩)
    (by decide) rfl).2
  simpa using h

/-- `getThread` after `setThread` at the same in-bounds index. -/
theorem getThread_setThread_self (s : Sched) (tid : Nat) (t : KThread)
    (h : tid < s.threads.length) : getThread (setThread s tid t) tid = t :=
  list_getD_set_self _ _ _ _ h

/-- `setThread` leaves the queues untouched. -/
theorem getQueue_setThread (s : Sched) (tid : Nat) (t : KThread) (qid : Nat) :
    getQueue (setThread s tid t) qid = getQueue s qid := rfl

/-- C7.  `sched_cancellable_sleep_on(q)`: if the current thread's cancelled
flag is already set it returns `-EINTR` immediately, without sleeping or
touching any state; otherwise it sets the thread to SLEEP_CANCELLABLE and
deposits it on `q`, and the return value computed on resumption is `-EINTR`
iff the thread has been cancelled, else 0.  Moreover a thread cancelled by
`sched_cancel` while in cancellable sleep on `q` is removed from `q` (it is
no longer on `q`), is made RUNNABLE, and its sleep then returns `-EINTR`. -/
theorem C7_cancellable_sleep_contract (s : Sched) (tid qid : Nat)
    (ht : tid < s.threads.length) (hq : qid < s.queues.length) (hq0 : qid ≠ 0)
    (hnotin : tid ∉ getQueue s qid) :
    ((getThread s tid).kt_cancelled = true →
      cancellable_sleep_enter s tid qid = .error .EINTR) ∧
    ((getThread s tid).kt_cancelled = false →
      ∃ s2, cancellable_sleep_enter s tid qid = .ok s2) ∧
    (∀ s2, cancellable_sleep_enter s tid qid = .ok s2 →
      (getThread s2 tid).kt_state = .KT_SLEEP_CANCELLABLE ∧
      (getThread s2 tid).kt_cancelled = false ∧
      tid ∈ getQueue s2 qid ∧
      cancellable_sleep_resume s2 tid = .ok () ∧
      (getThread (sched_cancel s2 tid) tid).kt_cancelled = true ∧
      tid ∉ getQueue (sched_cancel s2 tid) qid ∧
      (getThread (sched_cancel s2 tid) tid).kt_state = .KT_RUNNABLE ∧
      cancellable_sleep_resume (sched_cancel s2 tid) tid = .error .EINTR) := by
  have hg2 : ∀ t : KThread,
      getThread (ktqueue_enqueue (setThread s tid t) qid tid) tid =
        { t with kt_wchan := some qid } := by
    intro t
    unfold ktqueue_enqueue setThread getThread
    simp [List.set_set, list_getD_set_self, ht]
  have hq2 : ∀ t : KThread,
      getQueue (ktqueue_enqueue (setThread s tid t) qid tid) qid =
        tid :: getQueue s qid := by
    intro t
    unfold ktqueue_enqueue setThread getQueue getThread
    simp [list_getD_set_self, hq]
  have hgc : ∀ t : KThread, t.kt_state = .KT_SLEEP_CANCELLABLE →
      getThread (sched_cancel (ktqueue_enqueue (setThread s tid t) qid tid) tid) tid =
        { kt_state := .KT_RUNNABLE, kt_cancelled := true, kt_wchan := some 0 } := by
    intro t hts
    unfold sched_cancel sched_make_runnable ktqueue_remove ktqueue_enqueue
      setThread getThread getQueue
    simp [List.set_set, list_getD_set_self, list_getD_set_ne, ht, hq, hq0,
      Ne.symm hq0, hts]
  have hqc : ∀ t : KThread, t.kt_state = .KT_SLEEP_CANCELLABLE →
      tid ∉ getQueue (sched_cancel (ktqueue_enqueue (setThread s tid t) qid tid) tid) qid := by
    intro t hts
    unfold sched_cancel sched_make_runnable ktqueue_remove ktqueue_enqueue
      setThread getThread getQueue
    simp [List.set_set, list_getD_set_self, list_getD_set_ne, ht, hq, hq0,
      Ne.symm hq0, hts]
    simpa [getQueue, List.getD_eq_getElem, hq] using hnotin
  refine ⟨?_, ?_, ?_⟩
  · intro h
    simp [cancellable_sleep_enter, h]
  · intro h
    refine ⟨ktqueue_enqueue (setThread s tid
      { getThread s tid with kt_state := .KT_SLEEP_CANCELLABLE }) qid tid, ?_⟩
    simp [cancellable_sleep_enter, h]
  · intro s2 heq
    by_cases hc : (getThread s tid).kt_cancelled = true
    · simp [cancellable_sleep_enter, hc] at heq
    · simp only [Bool.not_eq_true] at hc
      unfold cancellable_sleep_enter at heq
      rw [if_neg (by simp [hc])] at heq
      simp only [Except.ok.injEq] at heq
      subst heq
      refine ⟨?_, ?_, ?_, ?_, ?_, ?_, ?_, ?_⟩
      · exact (hg2 _).symm ▸ rfl
      · rw [hg2]
        exact hc
      · rw [hq2]
        exact List.mem_cons_self _ _
      · unfold cancellable_sleep_resume
        rw [hg2]
        simpa using hc
      · rw [hgc _ rfl]
      · exact hqc _ rfl
      · rw [hgc _ rfl]
      · unfold cancellable_sleep_resume
        rw [hgc _ rfl]
        simp

/-- Witness for C7: a single thread sleeping cancellably on wait queue 1 is
cancelled; afterwards it is off the queue and its sleep returns `-EINTR`. -/
theorem C7_cancellable_sleep_contract_witness :
    (0 : Nat) ∉ getQueue (sched_cancel
      ⟨[{ kt_state := .KT_SLEEP_CANCELLABLE, kt_cancelled := false, kt_wchan := some 1 }],
       [[], [0]]⟩ 0) 1 ∧
    cancellable_sleep_resume (sched_cancel
      ⟨[{ kt_state := .KT_SLEEP_CANCELLABLE, kt_cancelled := false, kt_wchan := some 1 }],
       [[], [0]]⟩ 0) 0 = .error .EINTR := by
  have T := C7_cancellable_sleep_contract
    ⟨[{ kt_state := .KT_ON_CPU, kt_cancelled := false, kt_wchan := none }], [[], []]⟩
    0 1 (by decide) (by decide) (by decide) (by decide)
  have R := T.2.2
    ⟨[{ kt_state := .KT_SLEEP_CANCELLABLE, kt_cancelled := false, kt_wchan := some 1 }],
     [[], [0]]⟩ rfl
  exact ⟨R.2.2.2.2.2.1, R.2.2.2.2.2.2.2⟩

/-- C9.  `do_dup2(ofd, nfd)` with a valid, open `ofd` equal to `nfd` returns
`nfd` and leaves the descriptor table completely unchanged.  When `ofd` and
`nfd` differ and both are valid indices: if `nfd` was free, afterwards slots
`ofd` and `nfd` both reference `ofd`'s open file and its refcount is
incremented; if `nfd` was occupied by another open file `g`, that entry is
closed first (`g`'s refcount drops by one), and afterwards both slots
reference `ofd`'s open file, whose refcount is incremented. -/
theorem C9_do_dup2_contract (st : FdState) (ofd nfd : Int) (f : Nat)
    (hofd0 : 0 ≤ ofd) (hofdlt : ofd < (st.files.length : Int))
    (hopen : st.files.getD ofd.toNat none = some f) :
    (ofd = nfd → do_dup2 st ofd nfd = (.ok nfd, st)) ∧
    (ofd ≠ nfd → 0 ≤ nfd → nfd < (st.files.length : Int) →
      f < st.refcounts.length →
      st.files.getD nfd.toNat none = none →
      (do_dup2 st ofd nfd).1 = .ok nfd ∧
      (do_dup2 st ofd nfd).2.files.getD nfd.toNat none = some f ∧
      (do_dup2 st ofd nfd).2.files.getD ofd.toNat none = some f ∧
      (do_dup2 st ofd nfd).2.refcounts.getD f 0 = st.refcounts.getD f 0 + 1) ∧
    (∀ g : Nat, ofd ≠ nfd → 0 ≤ nfd → nfd < (st.files.length : Int) →
      f < st.refcounts.length → g < st.refcounts.length → g ≠ f →
      st.files.getD nfd.toNat none = some g →
      (do_dup2 st ofd nfd).1 = .ok nfd ∧
      (do_dup2 st ofd nfd).2.files.getD nfd.toNat none = some f ∧
      (do_dup2 st ofd nfd).2.files.getD ofd.toNat none = some f ∧
      (do_dup2 st ofd nfd).2.refcounts.getD f 0 = st.refcounts.getD f 0 + 1 ∧
      (do_dup2 st ofd nfd).2.refcounts.getD g 0 = st.refcounts.getD g 0 - 1) := by
  have hofd : ¬(ofd < 0 ∨ ofd ≥ (st.files.length : Int)) := by omega
  refine ⟨?_, ?_, ?_⟩
  · intro heq
    subst heq
    simp only [do_dup2, if_neg hofd, hopen, if_pos rfl, if_true]
  · intro hne hn0 hnlt hrc hfree
    have hnfd : ¬(nfd < 0 ∨ nfd ≥ (st.files.length : Int)) := by omega
    have hton : nfd.toNat < st.files.length := by omega
    have htno : ofd.toNat ≠ nfd.toNat := by omega
    have h2 : do_dup2 st ofd nfd = (.ok nfd,
        { files := st.files.set nfd.toNat (some f),
          refcounts := st.refcounts.set f (st.refcounts.getD f 0 + 1) }) := by
      simp only [do_dup2, if_neg hofd, if_neg hnfd, hopen, if_neg hne, hfree,
        Option.isSome_none, Bool.false_eq_true, if_false, fref]
    refine ⟨by rw [h2], ?_, ?_, ?_⟩
    · rw [h2]
      exact list_getD_set_self _ _ _ _ hton
    · rw [h2]
      rw [list_getD_set_ne _ _ _ _ _ (Ne.symm htno)]
      exact hopen
    · rw [h2]
      exact list_getD_set_self _ _ _ _ hrc
  · intro g hne hn0 hnlt hrc hgrc hgf hocc
    have hnfd : ¬(nfd < 0 ∨ nfd ≥ (st.files.length : Int)) := by omega
    have hton : nfd.toNat < st.files.length := by omega
    have htno : ofd.toNat ≠ nfd.toNat := by omega
    have h3 : do_dup2 st ofd nfd = (.ok nfd,
        { files := st.files.set nfd.toNat (some f),
          refcounts := (st.refcounts.set g (st.refcounts.getD g 0 - 1)).set f
            (st.refcounts.getD f 0 + 1) }) := by
      simp only [do_dup2, if_neg hofd, if_neg hnfd, hopen, if_neg hne, hocc,
        Option.isSome_some, if_true, do_close, fput, fref, List.set_set,
        list_getD_set_ne _ _ _ _ _ hgf]
    refine ⟨by rw [h3], ?_, ?_, ?_, ?_⟩
    · rw [h3]
      exact list_getD_set_self _ _ _ _ hton
    · rw [h3]
      rw [list_getD_set_ne _ _ _ _ _ (Ne.symm htno)]
      exact hopen
    · rw [h3]
      exact list_getD_set_self _ _ _ _ (by simpa using hrc)
    · rw [h3]
      rw [list_getD_set_ne _ _ _ _ _ (Ne.symm hgf)]
      exact list_getD_set_self _ _ _ _ hgrc

/-- Witness for C9: in a table with fd 0 open on file 0, fd 1 free and fd 2
open on file 1 (both files refcount 1): `dup2(0,0)` is a no-op, and
`dup2(0,2)` closes file 1 (refcount 0) and shares file 0 (refcount 2). -/
theorem C9_do_dup2_contract_witness :
    do_dup2 ⟨[some 0, none, some 1], [1, 1]⟩ 0 0 =
      (.ok 0, ⟨[some 0, none, some 1], [1, 1]⟩) ∧
    (do_dup2 ⟨[some 0, none, some 1], [1, 1]⟩ 0 2).2.refcounts.getD 0 0 = 2 ∧
    (do_dup2 ⟨[some 0, none, some 1], [1, 1]⟩ 0 2).2.refcounts.getD 1 0 = 0 := by
  refine ⟨(C9_do_dup2_contract ⟨[some 0, none, some 1], [1, 1]⟩ 0 0 0
    (by decide) (by decide) (by decide)).1 rfl, ?_, ?_⟩
  · have R := (C9_do_dup2_contract ⟨[some 0, none, some 1], [1, 1]⟩ 0 2 0
      (by decide) (by decide) (by decide)).2.2 1 (by decide) (by decide)
      (by decide) (by decide) (by decide) (by decide) (by decide)
    simpa using R.2.2.2.1
  · have R := (C9_do_dup2_contract ⟨[some 0, none, some 1], [1, 1]⟩ 0 2 0
      (by decide) (by decide) (by decide)).2.2 1 (by decide) (by decide)
      (by decide) (by decide) (by decide) (by decide) (by decide)
    simpa using R.2.2.2.2

/-- Counterexample for C8: a `do_mmap` call whose flags contain **both**
`MAP_PRIVATE` and `MAP_SHARED` (with `MAP_ANON`, `fd = -1`, `len = 1`,
`off = 0`) is *not* rejected with `-EINVAL`: the code only checks that at
least one of the two bits is present, so the call succeeds and maps a page
at the top of the user range. -/
theorem C8_both_flags_not_rejected :
    (do_mmap (1024 * 4096) (4096 * 4096) ⟨[], [], []⟩ 0 1 0
      { map_shared := true, map_private := true, map_anon := true } (-1) 0).1 =
      .ok (4095 * 4096) := rfl

/-- C8 (amended).  `do_mmap` fails with `-EINVAL`, leaving the state
unchanged, unless `len > 0`, `off ≥ 0` and page-aligned, the flags contain
**at least one** of `MAP_PRIVATE`/`MAP_SHARED` (a call with both set is
accepted, not rejected), and, when `MAP_FIXED` is given, `addr` is
page-aligned and inside `[USER_MEM_LOW, USER_MEM_HIGH)`. -/
theorem C8_do_mmap_validation (ulow uhigh : Nat) (st : VMState) (addr len : Nat)
    (prot : Nat) (flags : MFlags) (fd : Int) (off : Int)
    (h : ¬(len ≠ 0 ∧ 0 ≤ off ∧ off % (PAGE_SIZE : Int) = 0 ∧
           (flags.map_private = true ∨ flags.map_shared = true) ∧
           (flags.map_fixed = true → addr % PAGE_SIZE = 0 ∧ ulow ≤ addr ∧ addr < uhigh))) :
    do_mmap ulow uhigh st addr len prot flags fd off = (.error .EINVAL, st) := by
  by_cases h1 : len = 0 ∨ off < 0
  · unfold do_mmap
    rw [if_pos h1]
  by_cases h2 : ¬flags.map_private = true ∧ ¬flags.map_shared = true
  · unfold do_mmap
    rw [if_neg h1, if_pos h2]
  by_cases h3 : flags.map_fixed = true ∧ addr % PAGE_SIZE ≠ 0
  · unfold do_mmap
    rw [if_neg h1, if_neg h2, if_pos h3]
  by_cases h4 : flags.map_fixed = true ∧ (addr < ulow ∨ addr ≥ uhigh)
  · unfold do_mmap
    rw [if_neg h1, if_neg h2, if_neg h3, if_pos h4]
  by_cases h5 : off % (PAGE_SIZE : Int) ≠ 0
  · unfold do_mmap
    rw [if_neg h1, if_neg h2, if_neg h3, if_neg h4, if_pos h5]
  exfalso
  apply h
  push_neg at h1 h2 h3 h4 h5
  refine ⟨h1.1, by omega, h5, by tauto, fun hf => ⟨h3 hf, (h4 hf).1, (h4 hf).2⟩⟩

/-- Witness for the amended C8: a call with `len = 0` fails with `-EINVAL`
and leaves the state unchanged. -/
theorem C8_do_mmap_validation_witness :
    do_mmap (1024 * 4096) (4096 * 4096) ⟨[], [], []⟩ 0 0 0
      { map_private := true } (-1) 0 = (.error .EINVAL, ⟨[], [], []⟩) :=
  C8_do_mmap_validation (1024 * 4096) (4096 * 4096) ⟨[], [], []⟩ 0 0 0
    { map_private := true } (-1) 0 (fun hcon => hcon.1 rfl)

/-- `vmmap_map` with `file = NULL` never reads the descriptor table: its
result on a state with a different `files` component is the same result
with the `files` component carried through. -/
theorem vmmap_map_files (lo hi : Nat) (st : VMState) (F2 : List (Option MFile))
    (npages prot : Nat) (flags : MFlags) (off : Int) (dir : Dir) :
    vmmap_map lo hi { st with files := F2 } none npages prot flags off dir =
      (vmmap_map lo hi st none npages prot flags off dir).map
        (fun p => ({ p.1 with files := F2 }, p.2)) := by
  obtain ⟨vs, hp, F⟩ := st
  unfold vmmap_map
  split
  · rfl
  cases hfr : vmmap_find_range lo hi vs npages dir with
  | none =>
    simp only [hfr]
    rfl
  | some startPN =>
    simp only [hfr]
    split
    · rfl
    · rfl

/-- C10.  For every `do_mmap` call with `MAP_ANON` set: if `fd` is not
exactly `-1` the call fails with `-EINVAL` and the state (address space,
object heap, descriptor table) is unchanged; and when `fd = -1` the
descriptor table is never consulted — the result and the resulting address
space and object heap are identical for any contents of the descriptor
table. -/
theorem C10_do_mmap_anon (ulow uhigh : Nat) (st : VMState) (addr len prot : Nat)
    (flags : MFlags) (fd off : Int) (hanon : flags.map_anon = true) :
    (fd ≠ -1 → do_mmap ulow uhigh st addr len prot flags fd off = (.error .EINVAL, st)) ∧
    (∀ files2 : List (Option MFile),
      (do_mmap ulow uhigh { st with files := files2 } addr len prot flags (-1) off).1 =
        (do_mmap ulow uhigh st addr len prot flags (-1) off).1 ∧
      (do_mmap ulow uhigh { st with files := files2 } addr len prot flags (-1) off).2.vmas =
        (do_mmap ulow uhigh st addr len prot flags (-1) off).2.vmas ∧
      (do_mmap ulow uhigh { st with files := files2 } addr len prot flags (-1) off).2.heap =
        (do_mmap ulow uhigh st addr len prot flags (-1) off).2.heap) := by
  constructor
  · intro hfd
    unfold do_mmap
    split
    · rfl
    split
    · rfl
    split
    · rfl
    split
    · rfl
    split
    · rfl
    simp only [hanon, if_true]
  · intro files2
    unfold do_mmap
    simp only [hanon, if_true]
    split_ifs <;> try exact ⟨rfl, rfl, rfl⟩
    rw [vmmap_map_files]
    cases hvm : vmmap_map (ADDR_TO_PN ulow) (ADDR_TO_PN uhigh) st none
        (ADDR_TO_PN ((len + (PAGE_SIZE - 1)) % M64 / PAGE_SIZE * PAGE_SIZE))
        prot flags off .HILO with
    | error e => exact ⟨rfl, rfl, rfl⟩
    | ok p =>
      obtain ⟨st2, startPN⟩ := p
      exact ⟨rfl, rfl, rfl⟩

/-- Witness for C10: an anonymous mapping request with `fd = 3` fails with
`-EINVAL` leaving the state unchanged, and with `fd = -1` the result is the
same whether the descriptor table is empty or holds an open file. -/
theorem C10_do_mmap_anon_witness :
    do_mmap (1024 * 4096) (4096 * 4096) ⟨[], [], []⟩ 0 4096 0
      { map_private := true, map_anon := true } 3 0 =
      (.error .EINVAL, ⟨[], [], []⟩) ∧
    (do_mmap (1024 * 4096) (4096 * 4096) ⟨[], [], [some { fmode_read := true }]⟩
      0 4096 0 { map_private := true, map_anon := true } (-1) 0).1 =
    (do_mmap (1024 * 4096) (4096 * 4096) ⟨[], [], []⟩ 0 4096 0
      { map_private := true, map_anon := true } (-1) 0).1 := by
  refine ⟨(C10_do_mmap_anon (1024 * 4096) (4096 * 4096) ⟨[], [], []⟩ 0 4096 0
    { map_private := true, map_anon := true } 3 0 rfl).1 (by decide), ?_⟩
  exact ((C10_do_mmap_anon (1024 * 4096) (4096 * 4096) ⟨[], [], []⟩ 0 4096 0
    { map_private := true, map_anon := true } 3 0 rfl).2
    [some { fmode_read := true }]).1
